import Mathlib

/-!
# Verification of `src/request_logger.py`

A shallow embedding of the request-logging middleware: the route table
`API_PATTERNS`, the path classifier `parse_request_info`, the User-Agent
classifier `extract_client_name`, and the middleware `dispatch` method,
together with theorems settling the specification claims.

Strings are modelled as Lean `String`s; the concrete regular expressions of
the source are translated pattern-by-pattern into executable functions on
`List Char`.  Python's `re` case-insensitive matching is modelled by ASCII
lower-casing (all pattern names are ASCII); `\d` is modelled as an ASCII
decimal digit.
-/

namespace RequestLogger

/-- Character class `[\d.]` : an ASCII digit or a dot (the version part of
every client pattern). -/
def isVersChar (c : Char) : Bool := c.isDigit || c = '.'

/-- Character class `[A-Za-z0-9_-]` : the continuation characters of the
generic `ProductName` token. -/
def isTokenChar (c : Char) : Bool := c.isAlpha || c.isDigit || c = '_' || c = '-'

/-- If `p` is a (character-exact) prefix of `s`, return the rest of `s`
after `p`; otherwise `none`.  This is the engine for every anchored literal
piece of the route regexes. -/
def dropPrefixCh : List Char → List Char → Option (List Char)
  | [], s => some s
  | _ :: _, [] => none
  | a :: p, b :: s => if a = b then dropPrefixCh p s else none

/-- Match `(?:beta)?/models/([^:]+):` against `r` (the path after the
anchored `…/v1` prefix), returning the capture `[^:]+`.  Greedy `[^:]+`
followed by a literal `:` means: a non-empty colon-free run followed by a
colon. -/
def matchModelsAfter (r : List Char) : Option (List Char) :=
  let rest? :=
    match dropPrefixCh "beta/models/".data r with
    | some x => some x
    | none => dropPrefixCh "/models/".data r
  match rest? with
  | none => none
  | some rest =>
    let cap := rest.takeWhile (fun c => c ≠ ':')
    match rest.drop cap.length with
    | ':' :: _ => if cap = [] then none else some cap
    | _ => none

/-- The two shapes of route regex in `API_PATTERNS`:
`models pre` is `^{pre}(?:beta)?/models/([^:]+):` (one capturing group) and
`literal pre` is `^{pre}` (no group). -/
inductive APIPattern where
  | models (pre : String)
  | literal (pre : String)
deriving DecidableEq

/-- Anchored `re.match` of a route pattern against a path.  `none` = no match;
`some none` = match by a pattern without a capturing group
(`match.lastindex` is `None`); `some (some cap)` = match with first capture
`cap`. -/
def APIPattern.matchPath : APIPattern → List Char → Option (Option (List Char))
  | .models pre, s =>
    match dropPrefixCh pre.data s with
    | none => none
    | some r => (matchModelsAfter r).map some
  | .literal pre, s =>
    match dropPrefixCh pre.data s with
    | none => none
    | some _ => some none

/-- The route table `API_PATTERNS` of the source, in declared order. -/
def API_PATTERNS : List (APIPattern × String) :=
  [(.models "/antigravity/v1", "antigravity"),
   (.literal "/antigravity/v1/chat/completions", "antigravity"),
   (.literal "/antigravity/v1/messages", "antigravity"),
   (.models "/v1", "geminicli"),
   (.literal "/v1/chat/completions", "geminicli"),
   (.literal "/v1/messages", "geminicli")]

/-- The model name from a route match result:
`match.group(1) if match.lastindex else "chat"`. -/
def modelOf : Option (List Char) → String
  | some cap => String.mk cap
  | none => "chat"

/-- The `for pattern, mode in API_PATTERNS` loop of `parse_request_info`:
first pattern that matches the path wins; returns its mode and model. -/
def findRoute : List (APIPattern × String) → List Char → Option (String × String)
  | [], _ => none
  | pm :: ps, s =>
    match pm.1.matchPath s with
    | some capOpt => some (pm.2, modelOf capOpt)
    | none => findRoute ps s

/-- The known-client names, in declared order: client pattern `i` is
`(name_i)/[\d.]+` searched case-insensitively. -/
def client_patterns : List String :=
  ["CherryStudio", "Cursor", "VSCode", "Insomnia", "Postman", "HTTPie",
   "curl", "python-requests", "axios", "node-fetch", "Electron"]

/-- ASCII-case-insensitive comparison of `name` against the first
`name.length` characters of `s` (fails if `s` is too short). -/
def lowerEqAt : List Char → List Char → Bool
  | [], _ => true
  | _ :: _, [] => false
  | a :: n, b :: t => a.toLower = b.toLower && lowerEqAt n t

/-- Does `(name)/[\d.]+` (with `re.IGNORECASE`) match at the current
position of `s`? -/
def clientMatchAt (name s : List Char) : Bool :=
  lowerEqAt name s &&
    match s.drop name.length with
    | '/' :: c :: _ => isVersChar c
    | _ => false

/-- Scanning `re.search` of `(name)/[\d.]+` with `re.IGNORECASE`: scan positions
left to right; at the first matching position return the capture, i.e. the
`name.length` input characters there (input casing, not pattern casing). -/
def searchClient (name : List Char) : List Char → Option (List Char)
  | [] => none
  | c :: rest =>
    if clientMatchAt name (c :: rest) then some ((c :: rest).take name.length)
    else searchClient name rest

/-- The `for pattern in client_patterns` loop of `extract_client_name`:
first client pattern whose search succeeds wins. -/
def scanClients : List String → List Char → Option (List Char)
  | [], _ => none
  | n :: ns, s =>
    match searchClient n.data s with
    | some cap => some cap
    | none => scanClients ns s

/-- The generic fallback `re.search` of `^([A-Za-z][A-Za-z0-9_-]*)/` on the
User-Agent: a leading letter, a greedy run of token characters, then a
literal `/`; returns the capture. -/
def genericProduct : List Char → Option (List Char)
  | [] => none
  | c :: rest =>
    if c.isAlpha then
      let t := rest.takeWhile isTokenChar
      match rest.drop t.length with
      | '/' :: _ => some (c :: t)
      | _ => none
    else none

/-- The function `extract_client_name` of the source: `"Unknown"` for an empty
User-Agent, else the first known-client capture, else the generic leading
product name, else `"Browser"`. -/
def extract_client_name (ua : String) : String :=
  if ua.data = [] then "Unknown"
  else
    match scanClients client_patterns ua.data with
    | some cap => String.mk cap
    | none =>
      match genericProduct ua.data with
      | some cap => String.mk cap
      | none => "Browser"

/-- The function `parse_request_info` of the source: `(mode, model, client)` for the
first route pattern matching the path, `None` otherwise. -/
def parse_request_info (path ua : String) : Option (String × String × String) :=
  match findRoute API_PATTERNS path.data with
  | some (mode, model) => some (mode, model, extract_client_name ua)
  | none => none

/-- The request data the middleware reads: `request.url.path` and the
optional `user-agent` header. -/
structure Request where
  path : String
  userAgentHeader : Option String

/-- The header lookup `request.headers.get("user-agent", "")`. -/
def requestUserAgent (req : Request) : String := req.userAgentHeader.getD ""

/-- Observable actions of `dispatch`, in order: `log.info` calls and the
single `call_next` invocation. -/
inductive Event where
  | logInfo (line : String)
  | callNext
deriving DecidableEq

/-- Recognise the `call_next` event. -/
def Event.isCallNext : Event → Bool
  | .callNext => true
  | .logInfo _ => false

/-- Recognise a `log.info` event. -/
def Event.isLogInfo : Event → Bool
  | .callNext => false
  | .logInfo _ => true

/-- The log lines `dispatch` emits for a request with the given path and
User-Agent: exactly `f"{emoji} {model} | {client}"` on a route match,
nothing otherwise. -/
def dispatchLog (path ua : String) : List String :=
  match parse_request_info path ua with
  | some (mode, model, client) =>
    [(if mode = "antigravity" then "🚀" else "✨") ++ " " ++ model ++ " | " ++ client]
  | none => []

/-- The method `RequestLoggerMiddleware.dispatch`: log (if the path classifies), then
forward the request to `call_next` once and return its response
unmodified.  The first component is the ordered event trace. -/
def dispatch {Resp : Type} (call_next : Request → Resp) (req : Request) :
    List Event × Resp :=
  ((dispatchLog req.path (requestUserAgent req)).map Event.logInfo ++ [Event.callNext],
   call_next req)

/-! ## Helper lemmas -/

/-- A string is empty exactly when its character list is. -/
lemma string_eq_empty_iff (ua : String) : ua = "" ↔ ua.data = [] :=
  String.ext_iff

/-- No client pattern can match inside an empty User-Agent. -/
lemma scanClients_nil_input : ∀ ns : List String, scanClients ns [] = none := by
  intro ns
  induction ns with
  | nil => rfl
  | cons n ns ih => simp [scanClients, searchClient, ih]

/-- A successful case-insensitive comparison needs the input to be at least
as long as the pattern name. -/
lemma lowerEqAt_le_length :
    ∀ n s : List Char, lowerEqAt n s = true → n.length ≤ s.length := by
  intro n
  induction n with
  | nil => intro s _; exact Nat.zero_le _
  | cons a n ih =>
    intro s h
    cases s with
    | nil => simp [lowerEqAt] at h
    | cons b t =>
      simp [lowerEqAt] at h
      exact Nat.succ_le_succ (ih t h.2)

/-- A successful case-insensitive comparison restricts to the compared
prefix of the input. -/
lemma lowerEqAt_take :
    ∀ n s : List Char, lowerEqAt n s = true →
      lowerEqAt n (s.take n.length) = true := by
  intro n
  induction n with
  | nil => intro s _; rfl
  | cons a n ih =>
    intro s h
    cases s with
    | nil => simp [lowerEqAt] at h
    | cons b t =>
      simp [lowerEqAt] at h ⊢
      exact ⟨h.1, ih t h.2⟩

/-- What a successful `searchClient` returns: a capture that is a literal
infix of the input (hence in the input's casing), of the pattern name's
length, case-insensitively equal to the pattern name. -/
lemma searchClient_spec :
    ∀ s n cap : List Char, searchClient n s = some cap →
      (∃ pre suf, s = pre ++ cap ++ suf) ∧
        cap.length = n.length ∧ lowerEqAt n cap = true := by
  intro s
  induction s with
  | nil => intro n cap h; simp [searchClient] at h
  | cons c rest ih =>
    intro n cap h
    by_cases hm : clientMatchAt n (c :: rest) = true
    · simp [searchClient, hm] at h
      have hlow : lowerEqAt n (c :: rest) = true := by
        have hm' := hm
        unfold clientMatchAt at hm'
        rw [Bool.and_eq_true] at hm'
        exact hm'.1
      have hle : n.length ≤ rest.length + 1 := by
        simpa using lowerEqAt_le_length n (c :: rest) hlow
      refine ⟨⟨[], (c :: rest).drop n.length, ?_⟩, ?_, ?_⟩
      · rw [← h]
        simp [List.take_append_drop]
      · rw [← h]
        simp [List.length_take]
        omega
      · rw [← h]
        exact lowerEqAt_take n (c :: rest) hlow
    · simp [searchClient, hm] at h
      obtain ⟨⟨pre, suf, hps⟩, hlen, hlc⟩ := ih n cap h
      exact ⟨⟨c :: pre, suf, by simp [hps]⟩, hlen, hlc⟩

/-- A successful client scan comes from one of the listed patterns. -/
lemma scanClients_spec :
    ∀ (ns : List String) (s cap : List Char), scanClients ns s = some cap →
      ∃ n ∈ ns, searchClient n.data s = some cap := by
  intro ns
  induction ns with
  | nil => intro s cap h; simp [scanClients] at h
  | cons n ns ih =>
    intro s cap h
    cases hs : searchClient n.data s with
    | some cap' =>
      simp [scanClients, hs] at h
      exact ⟨n, List.mem_cons_self _ _, by rw [hs, h]⟩
    | none =>
      simp [scanClients, hs] at h
      obtain ⟨m, hm, hsearch⟩ := ih s cap h
      exact ⟨m, List.mem_cons_of_mem _ hm, hsearch⟩

/-- Patterns that all fail can be dropped from the front of the client
scan. -/
lemma scanClients_append_none :
    ∀ (ns ms : List String) (s : List Char),
      (∀ n ∈ ns, searchClient n.data s = none) →
      scanClients (ns ++ ms) s = scanClients ms s := by
  intro ns
  induction ns with
  | nil => intro ms s _; rfl
  | cons n ns ih =>
    intro ms s h
    have h1 : searchClient n.data s = none := h n (List.mem_cons_self _ _)
    have h2 : ∀ m ∈ ns, searchClient m.data s = none :=
      fun m hm => h m (List.mem_cons_of_mem _ hm)
    simp [scanClients, h1]
    exact ih ms s h2

/-- Route patterns that all fail can be dropped from the front of the route
search. -/
lemma findRoute_append_none :
    ∀ (ps qs : List (APIPattern × String)) (s : List Char),
      (∀ pm ∈ ps, pm.1.matchPath s = none) →
      findRoute (ps ++ qs) s = findRoute qs s := by
  intro ps
  induction ps with
  | nil => intro qs s _; rfl
  | cons pm ps ih =>
    intro qs s h
    have h1 : pm.1.matchPath s = none := h pm (List.mem_cons_self _ _)
    have h2 : ∀ q ∈ ps, q.1.matchPath s = none :=
      fun q hq => h q (List.mem_cons_of_mem _ hq)
    simp [findRoute, h1]
    exact ih qs s h2

/-- If no route pattern matches, the route search fails. -/
lemma findRoute_eq_none (s : List Char)
    (h : ∀ pm ∈ API_PATTERNS, pm.1.matchPath s = none) :
    findRoute API_PATTERNS s = none := by
  have h2 := findRoute_append_none API_PATTERNS [] s h
  rw [List.append_nil] at h2
  exact h2

/-- The mode of a successful route search is one of the listed modes. -/
lemma findRoute_mode_mem :
    ∀ (ps : List (APIPattern × String)) (s : List Char) (mode model : String),
      findRoute ps s = some (mode, model) → ∃ pm ∈ ps, pm.2 = mode := by
  intro ps
  induction ps with
  | nil => intro s mode model h; simp [findRoute] at h
  | cons pm ps ih =>
    intro s mode model h
    cases hm : pm.1.matchPath s with
    | some capOpt =>
      simp [findRoute, hm] at h
      exact ⟨pm, List.mem_cons_self _ _, h.1⟩
    | none =>
      simp [findRoute, hm] at h
      obtain ⟨q, hq, hq2⟩ := ih s mode model h
      exact ⟨q, List.mem_cons_of_mem _ hq, hq2⟩

/-- Every mode in the route table is `"antigravity"` or `"geminicli"`. -/
lemma api_modes :
    ∀ pm ∈ API_PATTERNS, pm.2 = "antigravity" ∨ pm.2 = "geminicli" := by
  decide

/-- Unfolding a successful classification into its route-table search and
its client extraction. -/
lemma parse_some_elim (path ua mode model client : String)
    (h : parse_request_info path ua = some (mode, model, client)) :
    findRoute API_PATTERNS path.data = some (mode, model) ∧
      client = extract_client_name ua := by
  cases hf : findRoute API_PATTERNS path.data with
  | none => simp [parse_request_info, hf] at h
  | some pm =>
    obtain ⟨mode', model'⟩ := pm
    simp [parse_request_info, hf] at h
    obtain ⟨h1, h2, h3⟩ := h
    subst h1
    subst h2
    exact ⟨rfl, h3.symm⟩

/-- The generic product capture is never empty. -/
lemma genericProduct_ne_nil :
    ∀ s cap : List Char, genericProduct s = some cap → cap ≠ [] := by
  intro s cap h
  cases s with
  | nil => simp [genericProduct] at h
  | cons c rest =>
    by_cases ha : c.isAlpha = true
    · simp only [genericProduct] at h
      rw [if_pos ha] at h
      split at h
      · cases h
        simp
      · exact absurd h (by simp)
    · simp [genericProduct, ha] at h

/-- Every known client name is non-empty. -/
lemma client_patterns_len : ∀ n ∈ client_patterns, n.data.length ≠ 0 := by
  decide

/-- The extracted client name is never the empty string. -/
lemma extract_name_ne_empty (ua : String) : extract_client_name ua ≠ "" := by
  by_cases hd : ua.data = []
  · simp [extract_client_name, hd]
  · cases hs : scanClients client_patterns ua.data with
    | some cap =>
      obtain ⟨n, hn, hsearch⟩ := scanClients_spec client_patterns ua.data cap hs
      have hlen := (searchClient_spec ua.data n.data cap hsearch).2.1
      have hne : cap ≠ [] := by
        intro hnil
        rw [hnil] at hlen
        exact client_patterns_len n hn hlen.symm
      simp [extract_client_name, hd, hs]
      intro hmk
      exact hne (congrArg String.data hmk)
    | none =>
      cases hg : genericProduct ua.data with
      | some cap =>
        have hne := genericProduct_ne_nil ua.data cap hg
        simp [extract_client_name, hd, hs, hg]
        intro hmk
        exact hne (congrArg String.data hmk)
      | none => simp [extract_client_name, hd, hs, hg]

/-! ## Claim theorems -/

/-- C1, counterexample: the claim says any casing of `cherrystudio/1.7.13`
in the User-Agent yields exactly `"CherryStudio"` (the casing written in
the regex); in fact the lower-case input yields `"cherrystudio"`. -/
theorem c1_counterexample :
    extract_client_name "cherrystudio/1.7.13" = "cherrystudio" ∧
      extract_client_name "cherrystudio/1.7.13" ≠ "CherryStudio" := by
  decide

/-- C1 (amended): the known-client match is case-insensitive, but the
returned name is the captured substring of the *input* (its casing, not
the regex's): it is an infix of the User-Agent of the pattern name's
length, case-insensitively equal to one of the known client names.  For
input `CherryStudio/1.7.13` the result is `"CherryStudio"` because the
input is spelled that way. -/
theorem c1_client_capture_input_casing :
    extract_client_name "CherryStudio/1.7.13" = "CherryStudio" ∧
      ∀ (ua : String) (cap : List Char),
        scanClients client_patterns ua.data = some cap →
        extract_client_name ua = String.mk cap ∧
          (∃ pre suf, ua.data = pre ++ cap ++ suf) ∧
          ∃ name ∈ client_patterns,
            cap.length = name.data.length ∧ lowerEqAt name.data cap = true := by
  refine ⟨by decide, ?_⟩
  intro ua cap h
  have hd : ua.data ≠ [] := by
    intro hnil
    rw [hnil, scanClients_nil_input] at h
    exact Option.noConfusion h
  obtain ⟨n, hn, hsearch⟩ := scanClients_spec client_patterns ua.data cap h
  have hsp := searchClient_spec ua.data n.data cap hsearch
  refine ⟨by simp [extract_client_name, hd, h], hsp.1, n, hn, hsp.2.1, hsp.2.2⟩

/-- C1, witness: the general part of the amended claim applied to the
concrete User-Agent `cursor/1.2.3`. -/
theorem c1_client_capture_input_casing_witness :
    extract_client_name "cursor/1.2.3" = String.mk "cursor".data :=
  ((c1_client_capture_input_casing.2 "cursor/1.2.3" "cursor".data (by decide)).1)

/-- C2: the antigravity Gemini-style path yields mode `antigravity` with
the captured model, the OpenAI-style path yields mode `geminicli` with the
default model `"chat"`; in general a `models` pattern always produces its
capture as the model and a `literal` pattern (no capturing group) always
produces the literal `"chat"`. -/
theorem c2_classification (ua : String) :
    parse_request_info "/antigravity/v1beta/models/gemini-3-flash:streamGenerateContent" ua
        = some ("antigravity", "gemini-3-flash", extract_client_name ua) ∧
      parse_request_info "/v1/chat/completions" ua
        = some ("geminicli", "chat", extract_client_name ua) ∧
      (∀ (pre : String) (s : List Char) (capOpt : Option (List Char)),
        APIPattern.matchPath (.models pre) s = some capOpt →
          ∃ cap, capOpt = some cap ∧ modelOf capOpt = String.mk cap) ∧
      (∀ (pre : String) (s : List Char) (capOpt : Option (List Char)),
        APIPattern.matchPath (.literal pre) s = some capOpt →
          capOpt = none ∧ modelOf capOpt = "chat") := by
  refine ⟨rfl, rfl, ?_, ?_⟩
  · intro pre s capOpt h
    simp only [APIPattern.matchPath] at h
    split at h
    case _ => exact absurd h (by simp)
    case _ r hr =>
      cases hm : matchModelsAfter r with
      | none => rw [hm] at h; exact absurd h (by simp)
      | some cap =>
        rw [hm] at h
        simp at h
        exact ⟨cap, h.symm, by rw [← h]; rfl⟩
  · intro pre s capOpt h
    simp only [APIPattern.matchPath] at h
    split at h
    case _ => exact absurd h (by simp)
    case _ r hr =>
      simp at h
      exact ⟨h.symm, by rw [← h]; rfl⟩

/-- C2, witness: the capturing-group part of C2 applied to the concrete
pattern `^/v1(?:beta)?/models/([^:]+):` and path `/v1/models/m:x`. -/
theorem c2_classification_witness :
    ∃ cap, (some "m".data : Option (List Char)) = some cap ∧
      modelOf (some "m".data) = String.mk cap :=
  (c2_classification "x").2.2.1 "/v1" "/v1/models/m:x".data (some "m".data) (by decide)

/-- C3: a path matched by no route rule classifies to `none`, and on such
a request `dispatch` emits no `log.info` event: its trace is exactly the
single `call_next`. -/
theorem c3_no_match_no_log :
    (∀ path ua : String,
        (∀ pm ∈ API_PATTERNS, pm.1.matchPath path.data = none) →
        parse_request_info path ua = none) ∧
      ∀ (Resp : Type) (call_next : Request → Resp) (req : Request),
        parse_request_info req.path (requestUserAgent req) = none →
        (dispatch call_next req).1 = [Event.callNext] := by
  constructor
  · intro path ua h
    simp [parse_request_info, findRoute_eq_none path.data h]
  · intro Resp call_next req h
    simp [dispatch, dispatchLog, h]

/-- C3, witness: the unmatched path `/health`. -/
theorem c3_no_match_no_log_witness :
    parse_request_info "/health" "curl/8.0" = none ∧
      (dispatch (fun _ => 0)
        { path := "/health", userAgentHeader := some "curl/8.0" }).1
        = [Event.callNext] :=
  ⟨c3_no_match_no_log.1 "/health" "curl/8.0" (by decide),
   c3_no_match_no_log.2 Nat (fun _ => 0)
     { path := "/health", userAgentHeader := some "curl/8.0" } (by decide)⟩

/-- C4: the empty User-Agent yields the sentinel `"Unknown"`;
`SomeWeirdClient` (non-empty, no known-client match, no leading
`ProductName/Version` token) yields `"Browser"`; and in general every
non-empty User-Agent on which both the known-client scan and the generic
leading-product match fail yields `"Browser"` (a string is always
returned, by the type of `extract_client_name`). -/
theorem c4_sentinels :
    extract_client_name "" = "Unknown" ∧
      extract_client_name "SomeWeirdClient" = "Browser" ∧
      ∀ ua : String, ua ≠ "" →
        scanClients client_patterns ua.data = none →
        genericProduct ua.data = none →
        extract_client_name ua = "Browser" := by
  refine ⟨by decide, by decide, ?_⟩
  intro ua hne hs hg
  have hd : ua.data ≠ [] := fun hnil =>
    hne ((string_eq_empty_iff ua).mpr hnil)
  simp [extract_client_name, hd, hs, hg]

/-- C4, witness: the general fallback part of C4 applied to the concrete
User-Agent `???`. -/
theorem c4_sentinels_witness : extract_client_name "???" = "Browser" :=
  c4_sentinels.2.2 "???" (by decide) (by decide) (by decide)

/-- C5: both rule tables are first-match-wins in declared order: if the
route table splits as `ps ++ (p, mode) :: qs` with every pattern of `ps`
failing on the path and `p` matching, the result is `p`'s mode and model;
likewise the first known-client pattern that matches decides the client
name; and `python-requests/2.28.0` yields `"python-requests"` via the
known-client list. -/
theorem c5_first_match_wins :
    (∀ (s : List Char) (ps qs : List (APIPattern × String)) (p : APIPattern)
        (mode : String) (capOpt : Option (List Char)),
        API_PATTERNS = ps ++ (p, mode) :: qs →
        (∀ pm ∈ ps, pm.1.matchPath s = none) →
        p.matchPath s = some capOpt →
        findRoute API_PATTERNS s = some (mode, modelOf capOpt)) ∧
      (∀ (s : List Char) (ns ms : List String) (n : String) (cap : List Char),
        client_patterns = ns ++ n :: ms →
        (∀ m ∈ ns, searchClient m.data s = none) →
        searchClient n.data s = some cap →
        scanClients client_patterns s = some cap) ∧
      extract_client_name "python-requests/2.28.0" = "python-requests" := by
  refine ⟨?_, ?_, by decide⟩
  · intro s ps qs p mode capOpt hsplit hnone hp
    rw [hsplit, findRoute_append_none ps ((p, mode) :: qs) s hnone]
    simp [findRoute, hp]
  · intro s ns ms n cap hsplit hnone hsearch
    rw [hsplit, scanClients_append_none ns (n :: ms) s hnone]
    simp [scanClients, hsearch]

/-- C5, witness: the route part of C5 applied to the path `/v1/messages`,
which fails the first five route patterns and matches the sixth. -/
theorem c5_first_match_wins_witness :
    findRoute API_PATTERNS "/v1/messages".data = some ("geminicli", modelOf none) :=
  c5_first_match_wins.1 "/v1/messages".data
    [(.models "/antigravity/v1", "antigravity"),
     (.literal "/antigravity/v1/chat/completions", "antigravity"),
     (.literal "/antigravity/v1/messages", "antigravity"),
     (.models "/v1", "geminicli"),
     (.literal "/v1/chat/completions", "geminicli")]
    [] (.literal "/v1/messages") "geminicli" none rfl (by decide) (by decide)

/-- C6: for every request, `dispatch` invokes the continuation exactly
once (one `callNext` event in its trace) and returns the continuation's
response unmodified, whether or not the path matched. -/
theorem c6_call_next_once (Resp : Type) (call_next : Request → Resp) (req : Request) :
    (dispatch call_next req).2 = call_next req ∧
      ((dispatch call_next req).1.countP Event.isCallNext) = 1 := by
  refine ⟨rfl, ?_⟩
  cases h : parse_request_info req.path (requestUserAgent req) with
  | none =>
    simp [dispatch, dispatchLog, h, List.countP_cons, Event.isCallNext]
  | some info =>
    obtain ⟨mode, model, client⟩ := info
    simp [dispatch, dispatchLog, h, List.countP_cons, Event.isCallNext]

/-- C7: on a matched request the logged line is exactly
`emoji ++ " " ++ model ++ " | " ++ client`, where the emoji is `🚀`
exactly when the mode is `antigravity` and `✨` exactly when it is
`geminicli` (no other mode occurs). -/
theorem c7_log_line_format (path ua mode model client : String)
    (h : parse_request_info path ua = some (mode, model, client)) :
    (mode = "antigravity" ∧
        dispatchLog path ua = ["🚀" ++ " " ++ model ++ " | " ++ client]) ∨
      (mode = "geminicli" ∧
        dispatchLog path ua = ["✨" ++ " " ++ model ++ " | " ++ client]) := by
  have hf := (parse_some_elim path ua mode model client h).1
  obtain ⟨pm, hmem, hpm⟩ := findRoute_mode_mem API_PATTERNS path.data mode model hf
  cases api_modes pm hmem with
  | inl ha =>
    left
    have hmode : mode = "antigravity" := by rw [← hpm, ha]
    subst hmode
    exact ⟨rfl, by simp [dispatchLog, h]⟩
  | inr hg =>
    right
    have hmode : mode = "geminicli" := by rw [← hpm, hg]
    subst hmode
    exact ⟨rfl, by simp [dispatchLog, h]⟩

/-- C7, witness: C7 applied to the concrete request
`/v1/messages` with User-Agent `curl/8.0`. -/
theorem c7_log_line_format_witness :
    (("geminicli" : String) = "antigravity" ∧
        dispatchLog "/v1/messages" "curl/8.0" = ["🚀" ++ " " ++ "chat" ++ " | " ++ "curl"]) ∨
      (("geminicli" : String) = "geminicli" ∧
        dispatchLog "/v1/messages" "curl/8.0" = ["✨" ++ " " ++ "chat" ++ " | " ++ "curl"]) :=
  c7_log_line_format "/v1/messages" "curl/8.0" "geminicli" "chat" "curl" (by decide)

/-- C8: both classifiers are total functions of their string arguments:
`extract_client_name` always returns a (non-empty) string, and
`parse_request_info` always returns either `none` or a well-formed
`(mode, model, client)` triple whose client is `extract_client_name` of
the User-Agent — absence of a match is a return value, never a failure. -/
theorem c8_totality (path ua : String) :
    extract_client_name ua ≠ "" ∧
      (parse_request_info path ua = none ∨
        ∃ mode model, parse_request_info path ua
          = some (mode, model, extract_client_name ua)) := by
  refine ⟨extract_name_ne_empty ua, ?_⟩
  cases hf : findRoute API_PATTERNS path.data with
  | none => exact Or.inl (by simp [parse_request_info, hf])
  | some pm =>
    obtain ⟨mode, model⟩ := pm
    exact Or.inr ⟨mode, model, by simp [parse_request_info, hf]⟩

/-- C9: route matching is anchored at the start only: any extension of a
listed literal route still classifies (with model `"chat"` and the rule's
mode), and in particular `/v1/messagesExtra` classifies and
`/v1/chat/completions/anything` produces a log line. -/
theorem c9_routes_open_ended (suffix ua : String) :
    parse_request_info ("/v1/chat/completions" ++ suffix) ua
        = some ("geminicli", "chat", extract_client_name ua) ∧
      parse_request_info ("/v1/messages" ++ suffix) ua
        = some ("geminicli", "chat", extract_client_name ua) ∧
      parse_request_info ("/antigravity/v1/chat/completions" ++ suffix) ua
        = some ("antigravity", "chat", extract_client_name ua) ∧
      parse_request_info ("/antigravity/v1/messages" ++ suffix) ua
        = some ("antigravity", "chat", extract_client_name ua) ∧
      parse_request_info "/v1/messagesExtra" ua
        = some ("geminicli", "chat", extract_client_name ua) ∧
      dispatchLog "/v1/chat/completions/anything" ua
        = ["✨ chat | " ++ extract_client_name ua] :=
  ⟨rfl, rfl, rfl, rfl, rfl, rfl⟩

/-- C10, counterexample: the claim says `"Unknown"` is returned only for
the empty User-Agent; but the non-empty User-Agent `Unknown/1.0` also
yields `"Unknown"` (via the generic leading-product capture). -/
theorem c10_counterexample :
    extract_client_name "Unknown/1.0" = "Unknown" ∧
      ("Unknown/1.0" : String) ≠ "" := by
  decide

/-- C10 (amended): the empty User-Agent yields `"Unknown"`; a whitespace
User-Agent `" "` is treated as non-empty and yields `"Browser"`;
`1client/2.0` (leading non-letter) falls past the generic fallback to
`"Browser"`; and a non-empty User-Agent yields `"Unknown"` only when one
of the two capture mechanisms itself captured the text `Unknown`. -/
theorem c10_unknown_sentinel :
    extract_client_name "" = "Unknown" ∧
      extract_client_name " " = "Browser" ∧
      extract_client_name "1client/2.0" = "Browser" ∧
      ∀ ua : String, extract_client_name ua = "Unknown" →
        ua = "" ∨
        ∃ cap, (scanClients client_patterns ua.data = some cap ∨
            genericProduct ua.data = some cap) ∧ String.mk cap = "Unknown" := by
  refine ⟨by decide, by decide, by decide, ?_⟩
  intro ua h
  by_cases hd : ua.data = []
  · exact Or.inl ((string_eq_empty_iff ua).mpr hd)
  · right
    cases hs : scanClients client_patterns ua.data with
    | some cap =>
      refine ⟨cap, Or.inl rfl, ?_⟩
      rw [← h]
      simp [extract_client_name, hd, hs]
    | none =>
      cases hg : genericProduct ua.data with
      | some cap =>
        refine ⟨cap, Or.inr rfl, ?_⟩
        rw [← h]
        simp [extract_client_name, hd, hs, hg]
      | none =>
        exact absurd h (by simp [extract_client_name, hd, hs, hg])

/-- C10, witness: the amended characterisation applied to the concrete
User-Agent `Unknown/1.0`. -/
theorem c10_unknown_sentinel_witness :
    ("Unknown/1.0" : String) = "" ∨
      ∃ cap, (scanClients client_patterns "Unknown/1.0".data = some cap ∨
          genericProduct "Unknown/1.0".data = some cap) ∧
        String.mk cap = "Unknown" :=
  c10_unknown_sentinel.2.2.2 "Unknown/1.0" (by decide)

end RequestLogger
